import Mathlib

/-!
Verification of the Binance API relay service (src/index.js) against its
natural-language specification.  The development shallowly embeds the
request-signing helper createBinanceSignature and the Express route
handlers as pure Lean functions: machine words are Nat with explicit
reduction modulo 2^32, byte strings are List Nat, and the outcome of the
single outbound axios call is passed to each handler as an explicit
argument of an Upstream sum type.
-/

set_option maxRecDepth 1000000

namespace BinanceRelay

/-! ### 32-bit arithmetic on Nat -/

/-- Modulus for 32-bit words. -/
def m32 : Nat := 4294967296

/-- Addition modulo 2^32. -/
def add32 (a b : Nat) : Nat := (a + b) % m32

/-- Right rotation of a 32-bit word. -/
def rotr32 (n x : Nat) : Nat := ((x >>> n) ||| (x <<< (32 - n))) % m32

/-- Bitwise complement within 32 bits. -/
def not32 (x : Nat) : Nat := x ^^^ 4294967295

/-! ### SHA-256 (FIPS 180-4), the model of node crypto's sha256 -/

/-- Choice function of the SHA-256 round. -/
def shaCh (x y z : Nat) : Nat := (x &&& y) ^^^ (not32 x &&& z)

/-- Majority function of the SHA-256 round. -/
def shaMaj (x y z : Nat) : Nat := (x &&& y) ^^^ (x &&& z) ^^^ (y &&& z)

/-- Big sigma-0 mixing function. -/
def bigS0 (x : Nat) : Nat := rotr32 2 x ^^^ rotr32 13 x ^^^ rotr32 22 x

/-- Big sigma-1 mixing function. -/
def bigS1 (x : Nat) : Nat := rotr32 6 x ^^^ rotr32 11 x ^^^ rotr32 25 x

/-- Small sigma-0 schedule function. -/
def smallS0 (x : Nat) : Nat := rotr32 7 x ^^^ rotr32 18 x ^^^ (x >>> 3)

/-- Small sigma-1 schedule function. -/
def smallS1 (x : Nat) : Nat := rotr32 17 x ^^^ rotr32 19 x ^^^ (x >>> 10)

/-- The 64 SHA-256 round constants. -/
def shaK : List Nat :=
  [1116352408, 1899447441, 3049323471, 3921009573, 961987163, 1508970993, 2453635748, 2870763221,
   3624381080, 310598401, 607225278, 1426881987, 1925078388, 2162078206, 2614888103, 3248222580,
   3835390401, 4022224774, 264347078, 604807628, 770255983, 1249150122, 1555081692, 1996064986,
   2554220882, 2821834349, 2952996808, 3210313671, 3336571891, 3584528711, 113926993, 338241895,
   666307205, 773529912, 1294757372, 1396182291, 1695183700, 1986661051, 2177026350, 2456956037,
   2730485921, 2820302411, 3259730800, 3345764771, 3516065817, 3600352804, 4094571909, 275423344,
   430227734, 506948616, 659060556, 883997877, 958139571, 1322822218, 1537002063, 1747873779,
   1955562222, 2024104815, 2227730452, 2361852424, 2428436474, 2756734187, 3204031479, 3329325298]

/-- Big-endian byte serialization: n bytes of the value v, most significant first. -/
def beBytes : Nat → Nat → List Nat
  | 0, _ => []
  | n + 1, v => (v >>> (8 * n)) % 256 :: beBytes n v

/-- SHA-256 padding: the message followed by 0x80, zero bytes up to 56 mod 64,
and the 64-bit big-endian bit length. -/
def sha256Pad (msg : List Nat) : List Nat :=
  msg ++ 128 :: List.replicate ((119 - msg.length % 64) % 64) 0 ++ beBytes 8 (msg.length * 8)

/-- Big-endian 32-bit words from a byte list taken four bytes at a time. -/
def toWords : List Nat → List Nat
  | b0 :: b1 :: b2 :: b3 :: rest => (((b0 * 256 + b1) * 256 + b2) * 256 + b3) :: toWords rest
  | _ => []

/-- Split a word list into blocks of 16 words; the fuel argument bounds the
number of blocks and is instantiated with the list length, which always
suffices because every step consumes a nonempty list. -/
def toBlocksF : Nat → List Nat → List (List Nat)
  | 0, _ => []
  | _, [] => []
  | fuel + 1, l => l.take 16 :: toBlocksF fuel (l.drop 16)

/-- Split a word list into blocks of 16 words. -/
def toBlocks (l : List Nat) : List (List Nat) := toBlocksF l.length l

/-- Extend the 16 words of a block with count further schedule words. -/
def extendSchedule : Nat → List Nat → List Nat
  | 0, w => w
  | n + 1, w =>
      let i := w.length
      extendSchedule n
        (w ++ [add32 (add32 (smallS1 (w.getD (i - 2) 0)) (w.getD (i - 7) 0))
                 (add32 (smallS0 (w.getD (i - 15) 0)) (w.getD (i - 16) 0))])

/-- The eight 32-bit working variables of the SHA-256 compression function. -/
structure Hash8 where
  a : Nat
  b : Nat
  c : Nat
  d : Nat
  e : Nat
  f : Nat
  g : Nat
  h : Nat

/-- Initial SHA-256 hash state. -/
def initH : Hash8 :=
  ⟨1779033703, 3144134277, 1013904242, 2773480762, 1359893119, 2600822924, 528734635, 1541459225⟩

/-- One round of the SHA-256 compression function. -/
def roundStep (s : Hash8) (k w : Nat) : Hash8 :=
  let t1 := add32 s.h (add32 (bigS1 s.e) (add32 (shaCh s.e s.f s.g) (add32 k w)))
  let t2 := add32 (bigS0 s.a) (shaMaj s.a s.b s.c)
  ⟨add32 t1 t2, s.a, s.b, s.c, add32 s.d t1, s.e, s.f, s.g⟩

/-- Fold the 64 rounds over paired round constants and schedule words. -/
def compressWords (s : Hash8) : List Nat → List Nat → Hash8
  | k :: ks, w :: ws => compressWords (roundStep s k w) ks ws
  | _, _ => s

/-- Process one 16-word block: extend the schedule, run the rounds, add the state. -/
def processBlock (s : Hash8) (block : List Nat) : Hash8 :=
  let t := compressWords s shaK (extendSchedule 48 block)
  ⟨add32 s.a t.a, add32 s.b t.b, add32 s.c t.c, add32 s.d t.d,
   add32 s.e t.e, add32 s.f t.f, add32 s.g t.g, add32 s.h t.h⟩

/-- SHA-256 of a byte list, as the final eight-word state. -/
def sha256 (msg : List Nat) : Hash8 :=
  (toBlocks (toWords (sha256Pad msg))).foldl processBlock initH

/-- SHA-256 digest of a byte list as a 32-byte list. -/
def sha256Bytes (msg : List Nat) : List Nat :=
  let s := sha256 msg
  beBytes 4 s.a ++ beBytes 4 s.b ++ beBytes 4 s.c ++ beBytes 4 s.d ++
  beBytes 4 s.e ++ beBytes 4 s.f ++ beBytes 4 s.g ++ beBytes 4 s.h

/-! ### HMAC-SHA256 (RFC 2104), the model of node crypto's createHmac -/

/-- HMAC-SHA256 digest of a message under a key, both byte lists. -/
def hmacSha256 (key msg : List Nat) : List Nat :=
  let k0 := if 64 < key.length then sha256Bytes key else key
  let kPad := k0 ++ List.replicate (64 - k0.length) 0
  let inner := sha256Bytes (kPad.map (fun b => b ^^^ 54) ++ msg)
  sha256Bytes (kPad.map (fun b => b ^^^ 92) ++ inner)

/-! ### Hex rendering and UTF-8 encoding -/

/-- The sixteen lowercase hexadecimal digit characters. -/
def hexDigitChars : List Char := "0123456789abcdef".data

/-- Lowercase hex character for a nibble. -/
def hexChar (n : Nat) : Char := hexDigitChars.getD (n % 16) '0'

/-- Two lowercase hex characters for one byte. -/
def byteHex (b : Nat) : List Char := [hexChar (b / 16), hexChar b]

/-- Lowercase hexadecimal string of a byte list, the model of digest applied to hex. -/
def bytesToHex (l : List Nat) : String := ⟨(l.map byteHex).flatten⟩

/-- UTF-8 encoding of one character. -/
def utf8Char (c : Char) : List Nat :=
  let n := c.toNat
  if n < 128 then [n]
  else if n < 2048 then [192 ||| (n >>> 6), 128 ||| (n &&& 63)]
  else if n < 65536 then [224 ||| (n >>> 12), 128 ||| ((n >>> 6) &&& 63), 128 ||| (n &&& 63)]
  else [240 ||| (n >>> 18), 128 ||| ((n >>> 12) &&& 63), 128 ||| ((n >>> 6) &&& 63), 128 ||| (n &&& 63)]

/-- UTF-8 byte list of a string, the encoding node applies to string keys and inputs. -/
def utf8 (s : String) : List Nat := (s.data.map utf8Char).flatten

/-! ### The signature helper createBinanceSignature (src/index.js lines 43-52) -/

/-- Canonical query string: the entries rendered key=value and joined with
an ampersand in list order, exactly as Object.entries followed by map and
join in the source.  No URL-encoding and no sorting is applied. -/
def canonicalQuery (params : List (String × String)) : String :=
  String.intercalate "&" (params.map (fun kv => kv.1 ++ "=" ++ kv.2))

/-- The signing helper from the source: HMAC-SHA256 of the canonical query
string keyed by the API secret, rendered as lowercase hex. -/
def createBinanceSignature (apiSecret : String) (params : List (String × String)) : String :=
  bytesToHex (hmacSha256 (utf8 apiSecret) (utf8 (canonicalQuery params)))

/-! ### Spec-side rendering of the signing contract

The specification describes the canonical string by its own words: the
entries of P joined as key=value pairs with an ampersand in the exact
insertion order supplied by the caller, with no URL-encoding and no
sorting.  specCanonical is that description written as a direct recursion,
to be compared with canonicalQuery taken from the source. -/

/-- Canonical string as the specification words it. -/
def specCanonical : List (String × String) → String
  | [] => ""
  | [kv] => kv.1 ++ "=" ++ kv.2
  | kv :: rest => kv.1 ++ "=" ++ kv.2 ++ "&" ++ specCanonical rest

/-- Signature as the specification words it: the lowercase hexadecimal
HMAC-SHA256 digest, keyed by the secret taken as raw bytes, of the
canonical string. -/
def specSignature (secret : String) (params : List (String × String)) : String :=
  bytesToHex (hmacSha256 (utf8 secret) (utf8 (specCanonical params)))

/-! ### JSON values, requests and upstream outcomes -/

/-- JSON values, the shape of response bodies and upstream error payloads. -/
inductive J where
  | s (v : String)
  | n (v : Int)
  | arr (items : List J)
  | obj (fields : List (String × J))

/-- An inbound HTTP request as the handlers see it: the header map and the
query map, both association lists of strings as Express presents them. -/
structure Req where
  headers : List (String × String)
  query : List (String × String)

/-- Header lookup, as bracket access on the Express headers object. -/
def getHeader (r : Req) (k : String) : Option String :=
  (r.headers.find? (fun kv => kv.1 == k)).map (fun kv => kv.2)

/-- Query-parameter lookup, as property access on the Express query object. -/
def getQuery (r : Req) (k : String) : Option String :=
  (r.query.find? (fun kv => kv.1 == k)).map (fun kv => kv.2)

/-- Truthiness of an optional string, as a JavaScript boolean test on a
possibly undefined string: false exactly for undefined and the empty string. -/
def truthy : Option String → Bool
  | none => false
  | some s => s != ""

/-- Outcome of the single outbound axios GET, parameterized by the type of a
successful response body.  httpErr is an upstream non-2xx reply, carrying the
upstream status, the upstream JSON error payload, and the axios error message;
netErr is a transport failure carrying only the error message. -/
inductive Upstream (α : Type) where
  | ok (data : α)
  | httpErr (status : Nat) (body : J) (message : String)
  | netErr (message : String)

/-- The outbound request a handler dispatches: upstream path, query
parameters in serialization order, and request headers. -/
structure OutboundCall where
  path : String
  query : List (String × String)
  headers : List (String × String)

/-- What a handler produced: the HTTP status and JSON body of its reply, and
the list of outbound calls it dispatched. -/
structure HandlerResult where
  status : Nat
  body : J
  calls : List OutboundCall

/-- Lookup of a field of a JSON object field list. -/
def jLookup (fields : List (String × J)) (k : String) : Option J :=
  (fields.find? (fun kv => kv.1 == k)).map (fun kv => kv.2)

/-- Truthiness of a JSON value under JavaScript coercion: the empty string
and zero are falsy, every other string, number, array or object is truthy. -/
def jTruthy : J → Bool
  | J.s v => v != ""
  | J.n v => v != 0
  | J.arr _ => true
  | J.obj _ => true

/-- The expression that reads the msg field of the upstream error payload and
falls back to the axios error message when the field is absent or falsy. -/
def msgOrElse : J → String → J
  | J.obj fields, fallback =>
      match jLookup fields "msg" with
      | some m => if jTruthy m then m else J.s fallback
      | none => J.s fallback
  | _, fallback => J.s fallback

/-! ### A model of the JavaScript parseFloat applied to balance amounts

parseFloat trims leading whitespace, then reads the longest prefix that is a
signed decimal literal (digits, an optional fraction, an optional exponent)
or a signed Infinity; it yields NaN when no such prefix exists.  The numeric
value is modelled with exact rational arithmetic; the JavaScript result is
the nearest binary double, whose comparison against zero agrees with the
rational comparison except for nonzero magnitudes below the smallest
positive denormal double, which parse to zero there. -/

/-- Result of parseFloat: not a number, a signed infinity, or a finite value. -/
inductive JNum where
  | nan
  | inf (neg : Bool)
  | val (q : ℚ)

/-- Value of a digit run read left to right. -/
def digitsToNat (l : List Char) : Nat :=
  l.foldl (fun a c => 10 * a + (c.toNat - 48)) 0

/-- parseFloat on a character list. -/
def jsParseFloatChars (l : List Char) : JNum :=
  let l1 := l.dropWhile (fun c => c == ' ' || c == '\t' || c == '\n' || c == '\r')
  let sl : Bool × List Char :=
    match l1 with
    | '-' :: r => (true, r)
    | '+' :: r => (false, r)
    | _ => (false, l1)
  let neg := sl.1
  let l2 := sl.2
  if ['I', 'n', 'f', 'i', 'n', 'i', 't', 'y'].isPrefixOf l2 then JNum.inf neg
  else
    let ip := l2.takeWhile Char.isDigit
    let l3 := l2.dropWhile Char.isDigit
    let fl : List Char × List Char :=
      match l3 with
      | '.' :: r => (r.takeWhile Char.isDigit, r.dropWhile Char.isDigit)
      | _ => ([], l3)
    let fp := fl.1
    let l4 := fl.2
    if ip.isEmpty && fp.isEmpty then JNum.nan
    else
      let expVal : Int :=
        match l4 with
        | 'e' :: rest | 'E' :: rest =>
            let es : Bool × List Char :=
              match rest with
              | '-' :: rr => (true, rr)
              | '+' :: rr => (false, rr)
              | _ => (false, rest)
            let ed := es.2.takeWhile Char.isDigit
            if ed.isEmpty then 0
            else if es.1 then -(digitsToNat ed : Int) else (digitsToNat ed : Int)
        | _ => 0
      let mantNum : Nat := digitsToNat ip * 10 ^ fp.length + digitsToNat fp
      let num : Nat × Nat :=
        if 0 ≤ expVal then (mantNum * 10 ^ expVal.toNat, 10 ^ fp.length)
        else (mantNum, 10 ^ fp.length * 10 ^ (-expVal).toNat)
      let mag : ℚ := mkRat (num.1 : Int) num.2
      JNum.val (if neg then -mag else mag)

/-- parseFloat on a string. -/
def jsParseFloat (s : String) : JNum := jsParseFloatChars s.data

/-- The comparison parseFloat result greater than zero: false for NaN, true
for positive infinity, the rational comparison for finite values. -/
def jnumPos : JNum → Bool
  | JNum.nan => false
  | JNum.inf neg => !neg
  | JNum.val q => decide (0 < q)

/-! ### The route handlers of src/index.js -/

/-- One entry of the upstream account balances array. -/
structure RawBalance where
  asset : String
  free : String
  locked : String

/-- The upstream account payload as the balances handler reads it: the
balances field may be absent.  The handler receives the whole body as an
Option, whose none models a falsy response body. -/
structure AccountData where
  balances : Option (List RawBalance)

/-- The filter condition of the balances reshape: free parses greater than
zero or locked parses greater than zero. -/
def positiveBalance (b : RawBalance) : Bool :=
  jnumPos (jsParseFloat b.free) || jnumPos (jsParseFloat b.locked)

/-- The remapping of one kept balance entry. -/
def outBalanceJ (b : RawBalance) : J :=
  J.obj [("asset", J.s b.asset), ("available", J.s b.free), ("onOrder", J.s b.locked)]

/-- The 400 body sent when a credential header is missing or empty. -/
def missingCredsBody : J :=
  J.obj [("error", J.s "Missing API credentials"),
         ("message", J.s "X-API-KEY and X-API-SECRET headers are required for account endpoints")]

/-- Error body of the catch branches that inspect the upstream reply: a fixed
label, the upstream status code, and the upstream msg field when truthy with
the axios message as fallback. -/
def upstreamErrBody (label : String) (status : Nat) (body : J) (message : String) : J :=
  J.obj [("error", J.s label), ("code", J.n status), ("message", msgOrElse body message)]

/-- GET /balances.  Credential check, signed call to /api/v3/account, then
the filter and remap reshape of the balances array. -/
def handleBalances (r : Req) (timestamp : Nat) (up : Upstream (Option AccountData)) :
    HandlerResult :=
  let apiKey := getHeader r "x-api-key"
  let apiSecret := getHeader r "x-api-secret"
  if !truthy apiKey || !truthy apiSecret then
    { status := 400, body := missingCredsBody, calls := [] }
  else
    let queryParams := [("timestamp", toString timestamp)]
    let signature := createBinanceSignature (apiSecret.getD "") queryParams
    let call : OutboundCall :=
      { path := "/api/v3/account",
        query := queryParams ++ [("signature", signature)],
        headers := [("X-MBX-APIKEY", apiKey.getD "")] }
    match up with
    | Upstream.ok (some data) =>
        match data.balances with
        | some balances =>
            { status := 200,
              body := J.arr ((balances.filter positiveBalance).map outBalanceJ),
              calls := [call] }
        | none =>
            { status := 500, body := J.obj [("error", J.s "Invalid response from Binance API")],
              calls := [call] }
    | Upstream.ok none =>
        { status := 500, body := J.obj [("error", J.s "Invalid response from Binance API")],
          calls := [call] }
    | Upstream.httpErr st body msg =>
        { status := st,
          body := upstreamErrBody "Failed to fetch balances from Binance" st body msg,
          calls := [call] }
    | Upstream.netErr msg =>
        { status := 500, body := J.obj [("error", J.s msg)], calls := [call] }

/-- GET /account.  Credential check, signed call to /api/v3/account,
upstream body passed through unchanged. -/
def handleAccount (r : Req) (timestamp : Nat) (up : Upstream J) : HandlerResult :=
  let apiKey := getHeader r "x-api-key"
  let apiSecret := getHeader r "x-api-secret"
  if !truthy apiKey || !truthy apiSecret then
    { status := 400, body := missingCredsBody, calls := [] }
  else
    let queryParams := [("timestamp", toString timestamp)]
    let signature := createBinanceSignature (apiSecret.getD "") queryParams
    let call : OutboundCall :=
      { path := "/api/v3/account",
        query := queryParams ++ [("signature", signature)],
        headers := [("X-MBX-APIKEY", apiKey.getD "")] }
    match up with
    | Upstream.ok data => { status := 200, body := data, calls := [call] }
    | Upstream.httpErr st body msg =>
        { status := st,
          body := upstreamErrBody "Failed to fetch account info from Binance" st body msg,
          calls := [call] }
    | Upstream.netErr msg =>
        { status := 500, body := J.obj [("error", J.s msg)], calls := [call] }

/-- The parameter set assembled by the openOrders handler: the timestamp,
then the symbol query parameter when truthy. -/
def openOrdersParams (r : Req) (timestamp : Nat) : List (String × String) :=
  [("timestamp", toString timestamp)] ++
    (if truthy (getQuery r "symbol") then [("symbol", (getQuery r "symbol").getD "")] else [])

/-- GET /openOrders.  Credential check, optional symbol, signed call to
/api/v3/openOrders, upstream body passed through unchanged. -/
def handleOpenOrders (r : Req) (timestamp : Nat) (up : Upstream J) : HandlerResult :=
  let apiKey := getHeader r "x-api-key"
  let apiSecret := getHeader r "x-api-secret"
  if !truthy apiKey || !truthy apiSecret then
    { status := 400, body := missingCredsBody, calls := [] }
  else
    let queryParams := openOrdersParams r timestamp
    let signature := createBinanceSignature (apiSecret.getD "") queryParams
    let call : OutboundCall :=
      { path := "/api/v3/openOrders",
        query := queryParams ++ [("signature", signature)],
        headers := [("X-MBX-APIKEY", apiKey.getD "")] }
    match up with
    | Upstream.ok data => { status := 200, body := data, calls := [call] }
    | Upstream.httpErr st body msg =>
        { status := st,
          body := upstreamErrBody "Failed to fetch open orders from Binance" st body msg,
          calls := [call] }
    | Upstream.netErr msg =>
        { status := 500, body := J.obj [("error", J.s msg)], calls := [call] }

/-- One optional query parameter forwarded when truthy, as the conditional
property assignments of the myTrades handler. -/
def optTruthyParam (r : Req) (k : String) : List (String × String) :=
  if truthy (getQuery r k) then [(k, (getQuery r k).getD "")] else []

/-- The parameter set assembled by the myTrades handler: timestamp, symbol,
then limit, fromId, startTime and endTime when truthy, in that order. -/
def myTradesParams (r : Req) (timestamp : Nat) : List (String × String) :=
  [("timestamp", toString timestamp), ("symbol", (getQuery r "symbol").getD "")] ++
    optTruthyParam r "limit" ++ optTruthyParam r "fromId" ++
    optTruthyParam r "startTime" ++ optTruthyParam r "endTime"

/-- The 400 body sent by myTrades when the symbol query parameter is falsy. -/
def missingSymbolBody : J :=
  J.obj [("error", J.s "Missing symbol parameter"),
         ("message", J.s "Symbol parameter is required for myTrades endpoint")]

/-- GET /myTrades.  Credential check, required symbol, optional filters,
signed call to /api/v3/myTrades, upstream body passed through unchanged. -/
def handleMyTrades (r : Req) (timestamp : Nat) (up : Upstream J) : HandlerResult :=
  let apiKey := getHeader r "x-api-key"
  let apiSecret := getHeader r "x-api-secret"
  if !truthy apiKey || !truthy apiSecret then
    { status := 400, body := missingCredsBody, calls := [] }
  else if !truthy (getQuery r "symbol") then
    { status := 400, body := missingSymbolBody, calls := [] }
  else
    let queryParams := myTradesParams r timestamp
    let signature := createBinanceSignature (apiSecret.getD "") queryParams
    let call : OutboundCall :=
      { path := "/api/v3/myTrades",
        query := queryParams ++ [("signature", signature)],
        headers := [("X-MBX-APIKEY", apiKey.getD "")] }
    match up with
    | Upstream.ok data => { status := 200, body := data, calls := [call] }
    | Upstream.httpErr st body msg =>
        { status := st,
          body := upstreamErrBody "Failed to fetch trade history from Binance" st body msg,
          calls := [call] }
    | Upstream.netErr msg =>
        { status := 500, body := J.obj [("error", J.s msg)], calls := [call] }

/-- GET /ping.  Unauthenticated call to /api/v3/ping; every failure maps to a
fixed 500 with the error message. -/
def handlePing (up : Upstream Unit) : HandlerResult :=
  let call : OutboundCall := { path := "/api/v3/ping", query := [], headers := [] }
  match up with
  | Upstream.ok _ =>
      { status := 200,
        body := J.obj [("status", J.s "success"), ("binance_status", J.s "online")],
        calls := [call] }
  | Upstream.httpErr _ _ msg =>
      { status := 500, body := J.obj [("status", J.s "error"), ("message", J.s msg)],
        calls := [call] }
  | Upstream.netErr msg =>
      { status := 500, body := J.obj [("status", J.s "error"), ("message", J.s msg)],
        calls := [call] }

/-- The price property of the upstream ticker body, dropped from the reply
object when absent, as JSON serialization drops an undefined property. -/
def priceFields (data : J) : List (String × J) :=
  match data with
  | J.obj fields =>
      match jLookup fields "price" with
      | some v => [("price", v)]
      | none => []
  | _ => []

/-- GET /price/:symbol.  Unauthenticated call to /api/v3/ticker/price with
the symbol; on an upstream error reply the upstream status is propagated
with the upstream payload echoed under details. -/
def handlePrice (symbol : String) (up : Upstream J) : HandlerResult :=
  let call : OutboundCall :=
    { path := "/api/v3/ticker/price", query := [("symbol", symbol)], headers := [] }
  match up with
  | Upstream.ok data =>
      { status := 200, body := J.obj (priceFields data), calls := [call] }
  | Upstream.httpErr st body _ =>
      { status := st,
        body := J.obj [("error", J.s "Failed to fetch price from Binance"), ("details", body)],
        calls := [call] }
  | Upstream.netErr msg =>
      { status := 500, body := J.obj [("error", J.s msg)], calls := [call] }

/-- Association-list update with the JavaScript object assignment semantics:
an existing key keeps its position and gets the new value, a new key is
appended. -/
def upsert : List (String × String) → String → String → List (String × String)
  | [], k, v => [(k, v)]
  | kv :: rest, k, v => if kv.1 == k then (k, v) :: rest else kv :: upsert rest k v

/-- The prices dictionary built by the forEach loop over the upstream array
of symbol and price entries. -/
def buildPrices (items : List (String × String)) : List (String × String) :=
  items.foldl (fun m it => upsert m it.1 it.2) []

/-- GET /prices.  Unauthenticated call to /api/v3/ticker/price without
parameters; the upstream array is flattened into an object mapping each
symbol to a price; every failure maps to a fixed 500. -/
def handlePrices (up : Upstream (List (String × String))) : HandlerResult :=
  let call : OutboundCall := { path := "/api/v3/ticker/price", query := [], headers := [] }
  match up with
  | Upstream.ok items =>
      { status := 200,
        body := J.obj ((buildPrices items).map (fun kv => (kv.1, J.s kv.2))),
        calls := [call] }
  | Upstream.httpErr _ _ msg =>
      { status := 500, body := J.obj [("error", J.s msg)], calls := [call] }
  | Upstream.netErr msg =>
      { status := 500, body := J.obj [("error", J.s msg)], calls := [call] }

/-- GET /exchangeInfo.  Unauthenticated passthrough of /api/v3/exchangeInfo;
every failure maps to a fixed 500. -/
def handleExchangeInfo (up : Upstream J) : HandlerResult :=
  let call : OutboundCall := { path := "/api/v3/exchangeInfo", query := [], headers := [] }
  match up with
  | Upstream.ok data => { status := 200, body := data, calls := [call] }
  | Upstream.httpErr _ _ msg =>
      { status := 500, body := J.obj [("error", J.s msg)], calls := [call] }
  | Upstream.netErr msg =>
      { status := 500, body := J.obj [("error", J.s msg)], calls := [call] }

/-- One query parameter forwarded whenever present, as axios serializes
every defined property including the empty string. -/
def optPresentParam (r : Req) (k : String) : List (String × String) :=
  match getQuery r k with
  | some v => [(k, v)]
  | none => []

/-- The outbound call of the klines handler: the three destructured query
parameters are forwarded when present, with no validation at all. -/
def klinesCall (r : Req) : OutboundCall :=
  { path := "/api/v3/klines",
    query := optPresentParam r "symbol" ++ optPresentParam r "interval" ++
      optPresentParam r "limit",
    headers := [] }

/-- GET /klines.  Unauthenticated passthrough of /api/v3/klines; every
failure maps to a fixed 500. -/
def handleKlines (r : Req) (up : Upstream J) : HandlerResult :=
  match up with
  | Upstream.ok data => { status := 200, body := data, calls := [klinesCall r] }
  | Upstream.httpErr _ _ msg =>
      { status := 500, body := J.obj [("error", J.s msg)], calls := [klinesCall r] }
  | Upstream.netErr msg =>
      { status := 500, body := J.obj [("error", J.s msg)], calls := [klinesCall r] }

/-- GET /ticker/24hr.  Unauthenticated passthrough of /api/v3/ticker/24hr,
with the symbol forwarded only when truthy; every failure maps to a fixed
500. -/
def handleTicker24hr (r : Req) (up : Upstream J) : HandlerResult :=
  let call : OutboundCall :=
    { path := "/api/v3/ticker/24hr",
      query := if truthy (getQuery r "symbol")
        then [("symbol", (getQuery r "symbol").getD "")] else [],
      headers := [] }
  match up with
  | Upstream.ok data => { status := 200, body := data, calls := [call] }
  | Upstream.httpErr _ _ msg =>
      { status := 500, body := J.obj [("error", J.s msg)], calls := [call] }
  | Upstream.netErr msg =>
      { status := 500, body := J.obj [("error", J.s msg)], calls := [call] }



/-! ### Spec-side views used by the claims -/

/-- The balances reshape as the specification words it: the sublist of
entries whose free amount parses greater than zero or whose locked amount
parses greater than zero, in their original order, each remapped to an
object with asset, available taken from free, and onOrder taken from
locked. -/
def specBalancesView (l : List RawBalance) : List J :=
  (l.filter (fun b => jnumPos (jsParseFloat b.free) || jnumPos (jsParseFloat b.locked))).map
    (fun b => J.obj [("asset", J.s b.asset), ("available", J.s b.free), ("onOrder", J.s b.locked)])

/-- Lookup in a string association list, first match. -/
def lookupStr (m : List (String × String)) (s : String) : Option String :=
  (m.find? (fun kv => kv.1 == s)).map (fun kv => kv.2)

/-- The value paired with the last occurrence of a key in an entry list. -/
def lastAssoc (items : List (String × String)) (s : String) : Option String :=
  (items.reverse.find? (fun kv => kv.1 == s)).map (fun kv => kv.2)

/-- A request carrying the two credential headers and a query map. -/
def mkAuthReq (apiKey apiSecret : String) (query : List (String × String)) : Req :=
  { headers := [("x-api-key", apiKey), ("x-api-secret", apiSecret)], query := query }

/-- The rendered key=value entry of one parameter. -/
def entryStr (kv : String × String) : String := kv.1 ++ "=" ++ kv.2

/-- Boolean test that every character of a string is a lowercase hex digit. -/
def lowercaseHexString (s : String) : Bool :=
  s.data.all (fun c => hexDigitChars.contains c)

/-! ### Auxiliary lemmas about intercalation and digest shape -/

theorem intercalate_go_data (s : String) : ∀ (as : List String) (acc : String),
    (String.intercalate.go acc s as).data =
      acc.data ++ (as.map (fun a => s.data ++ a.data)).flatten
  | [], acc => by simp [String.intercalate.go]
  | a :: as, acc => by
    rw [String.intercalate.go, intercalate_go_data s as (acc ++ s ++ a)]
    simp

theorem list_intercalate_cons {α : Type} (sep x : List α) (xs : List (List α)) :
    List.intercalate sep (x :: xs) = x ++ (xs.map (fun r => sep ++ r)).flatten := by
  induction xs generalizing x with
  | nil => simp [List.intercalate]
  | cons y ys ih =>
    calc List.intercalate sep (x :: y :: ys)
        = x ++ (sep ++ List.intercalate sep (y :: ys)) := by
          simp [List.intercalate, List.intersperse_cons₂]
      _ = x ++ (sep ++ (y ++ (ys.map (fun r => sep ++ r)).flatten)) := by rw [ih]
      _ = x ++ ((y :: ys).map (fun r => sep ++ r)).flatten := by simp

theorem intercalate_data (s : String) (l : List String) :
    (String.intercalate s l).data = List.intercalate s.data (l.map String.data) := by
  cases l with
  | nil => simp [String.intercalate, List.intercalate]
  | cons a as =>
    have h1 : String.intercalate s (a :: as) = String.intercalate.go a s as := rfl
    rw [h1, intercalate_go_data, List.map_cons, list_intercalate_cons]
    simp only [List.map_map]
    rfl

theorem canonicalQuery_cons₂ (kv kv2 : String × String) (rest : List (String × String)) :
    canonicalQuery (kv :: kv2 :: rest) =
      kv.1 ++ "=" ++ kv.2 ++ "&" ++ canonicalQuery (kv2 :: rest) := by
  apply String.ext
  have h1 : canonicalQuery (kv :: kv2 :: rest) =
      String.intercalate.go (kv.1 ++ "=" ++ kv.2) "&"
        ((kv2 :: rest).map (fun p => p.1 ++ "=" ++ p.2)) := rfl
  have h2 : canonicalQuery (kv2 :: rest) =
      String.intercalate.go (kv2.1 ++ "=" ++ kv2.2) "&"
        (rest.map (fun p => p.1 ++ "=" ++ p.2)) := rfl
  rw [h1, intercalate_go_data]
  simp [h2, intercalate_go_data]

theorem canonicalQuery_eq_specCanonical (params : List (String × String)) :
    canonicalQuery params = specCanonical params := by
  induction params with
  | nil => rfl
  | cons kv rest ih =>
    cases rest with
    | nil => rfl
    | cons kv2 rest2 =>
      rw [canonicalQuery_cons₂, ih]
      rfl

theorem beBytes_length (n v : Nat) : (beBytes n v).length = n := by
  induction n generalizing v with
  | zero => rfl
  | succ k ih => simp [beBytes, ih]

theorem sha256Bytes_length (msg : List Nat) : (sha256Bytes msg).length = 32 := by
  simp [sha256Bytes, beBytes_length]

theorem hmacSha256_length (key msg : List Nat) : (hmacSha256 key msg).length = 32 := by
  rw [hmacSha256]
  exact sha256Bytes_length _

theorem getD_mem {α : Type} (l : List α) (n : Nat) (d : α) (hd : d ∈ l) : l.getD n d ∈ l := by
  rcases h : l[n]? with _ | x
  · simpa [List.getD_eq_getElem?_getD, h] using hd
  · have hx : l.getD n d = x := by simp [List.getD_eq_getElem?_getD, h]
    rw [hx]
    exact List.getElem?_mem h

theorem hexChar_mem (n : Nat) : hexChar n ∈ hexDigitChars :=
  getD_mem _ _ _ (by decide)

theorem bytesToHex_length (l : List Nat) : (bytesToHex l).length = 2 * l.length := by
  show ((l.map byteHex).flatten).length = 2 * l.length
  induction l with
  | nil => rfl
  | cons b bs ih => simp [byteHex] at *; omega

theorem bytesToHex_chars (l : List Nat) :
    ∀ c ∈ (bytesToHex l).data, c ∈ hexDigitChars := by
  intro c hc
  have : c ∈ (l.map byteHex).flatten := hc
  rw [List.mem_flatten] at this
  obtain ⟨piece, hp, hcp⟩ := this
  rw [List.mem_map] at hp
  obtain ⟨b, _, rfl⟩ := hp
  simp only [byteHex, List.mem_cons, List.not_mem_nil, or_false] at hcp
  rcases hcp with rfl | rfl
  · exact hexChar_mem _
  · exact hexChar_mem _

theorem lowercaseHexString_bytesToHex (l : List Nat) :
    lowercaseHexString (bytesToHex l) = true := by
  rw [lowercaseHexString, List.all_eq_true]
  intro c hc
  have hx : c ∈ hexDigitChars := bytesToHex_chars l c hc
  rw [List.contains_iff_exists_mem_beq]
  exact ⟨c, hx, by simp⟩

/-- Sanity check of the HMAC-SHA256 model against the classic published test
vector with key key and the quick brown fox message. -/
theorem hmacSha256_known_vector :
    bytesToHex (hmacSha256 (utf8 "key") (utf8 "The quick brown fox jumps over the lazy dog")) =
      "f7bc83f430538424b13298e6aa6fb143ef4d59a14946175997479dbc2d1a3cd8" := by
  decide

/-! ### Handler reduction lemmas -/

theorem truthy_some_of_ne (k : String) (h : k ≠ "") : truthy (some k) = true := by
  simp [truthy, h]

theorem getHeader_mkAuthReq_key (k s : String) (q : List (String × String)) :
    getHeader (mkAuthReq k s q) "x-api-key" = some k := rfl

theorem getHeader_mkAuthReq_secret (k s : String) (q : List (String × String)) :
    getHeader (mkAuthReq k s q) "x-api-secret" = some s := rfl

theorem handleBalances_noCreds (r : Req) (ts : Nat) (up : Upstream (Option AccountData))
    (h : (truthy (getHeader r "x-api-key") && truthy (getHeader r "x-api-secret")) = false) :
    handleBalances r ts up = { status := 400, body := missingCredsBody, calls := [] } := by
  simp only [handleBalances, ← Bool.not_and, h, Bool.not_false, if_true]

theorem handleAccount_noCreds (r : Req) (ts : Nat) (up : Upstream J)
    (h : (truthy (getHeader r "x-api-key") && truthy (getHeader r "x-api-secret")) = false) :
    handleAccount r ts up = { status := 400, body := missingCredsBody, calls := [] } := by
  simp only [handleAccount, ← Bool.not_and, h, Bool.not_false, if_true]

theorem handleOpenOrders_noCreds (r : Req) (ts : Nat) (up : Upstream J)
    (h : (truthy (getHeader r "x-api-key") && truthy (getHeader r "x-api-secret")) = false) :
    handleOpenOrders r ts up = { status := 400, body := missingCredsBody, calls := [] } := by
  simp only [handleOpenOrders, ← Bool.not_and, h, Bool.not_false, if_true]

theorem handleMyTrades_noCreds (r : Req) (ts : Nat) (up : Upstream J)
    (h : (truthy (getHeader r "x-api-key") && truthy (getHeader r "x-api-secret")) = false) :
    handleMyTrades r ts up = { status := 400, body := missingCredsBody, calls := [] } := by
  simp only [handleMyTrades, ← Bool.not_and, h, Bool.not_false, if_true]

theorem handleBalances_calls (r : Req) (ts : Nat) (up : Upstream (Option AccountData))
    (hk : truthy (getHeader r "x-api-key") = true)
    (hs : truthy (getHeader r "x-api-secret") = true) :
    (handleBalances r ts up).calls =
      [{ path := "/api/v3/account",
         query := [("timestamp", toString ts),
           ("signature", createBinanceSignature ((getHeader r "x-api-secret").getD "")
             [("timestamp", toString ts)])],
         headers := [("X-MBX-APIKEY", (getHeader r "x-api-key").getD "")] }] := by
  rcases up with d | ⟨st, b, m⟩ | m
  · rcases d with _ | ⟨_ | bl⟩ <;> simp [handleBalances, hk, hs]
  · simp [handleBalances, hk, hs]
  · simp [handleBalances, hk, hs]

theorem handleAccount_calls (r : Req) (ts : Nat) (up : Upstream J)
    (hk : truthy (getHeader r "x-api-key") = true)
    (hs : truthy (getHeader r "x-api-secret") = true) :
    (handleAccount r ts up).calls =
      [{ path := "/api/v3/account",
         query := [("timestamp", toString ts),
           ("signature", createBinanceSignature ((getHeader r "x-api-secret").getD "")
             [("timestamp", toString ts)])],
         headers := [("X-MBX-APIKEY", (getHeader r "x-api-key").getD "")] }] := by
  rcases up with d | ⟨st, b, m⟩ | m <;> simp [handleAccount, hk, hs]

theorem handleOpenOrders_calls (r : Req) (ts : Nat) (up : Upstream J)
    (hk : truthy (getHeader r "x-api-key") = true)
    (hs : truthy (getHeader r "x-api-secret") = true) :
    (handleOpenOrders r ts up).calls =
      [{ path := "/api/v3/openOrders",
         query := openOrdersParams r ts ++
           [("signature", createBinanceSignature ((getHeader r "x-api-secret").getD "")
             (openOrdersParams r ts))],
         headers := [("X-MBX-APIKEY", (getHeader r "x-api-key").getD "")] }] := by
  rcases up with d | ⟨st, b, m⟩ | m <;> simp [handleOpenOrders, hk, hs]

theorem handleMyTrades_calls (r : Req) (ts : Nat) (up : Upstream J)
    (hk : truthy (getHeader r "x-api-key") = true)
    (hs : truthy (getHeader r "x-api-secret") = true)
    (hsym : truthy (getQuery r "symbol") = true) :
    (handleMyTrades r ts up).calls =
      [{ path := "/api/v3/myTrades",
         query := myTradesParams r ts ++
           [("signature", createBinanceSignature ((getHeader r "x-api-secret").getD "")
             (myTradesParams r ts))],
         headers := [("X-MBX-APIKEY", (getHeader r "x-api-key").getD "")] }] := by
  rcases up with d | ⟨st, b, m⟩ | m <;> simp [handleMyTrades, hk, hs, hsym]

/-! ### Claim theorems -/

/-- C1: for every secret S and parameter set P, the signing helper equals
the lowercase hexadecimal HMAC-SHA256 digest, keyed by the raw bytes of S,
of the canonical string formed by joining the entries of P as key=value
pairs with an ampersand in the exact insertion order supplied by the
caller, with no URL-encoding and no sorting. -/
theorem C1_sign_matches_spec (S : String) (P : List (String × String)) :
    createBinanceSignature S P = specSignature S P := by
  unfold createBinanceSignature specSignature
  rw [canonicalQuery_eq_specCanonical]

/-- C2 counterexample: with the empty secret and the empty parameter set the
helper does not fail with an InvalidInput error; it returns the HMAC-SHA256
digest of the empty string under the empty key.  The source has no
validation at all in createBinanceSignature. -/
theorem C2_counterexample :
    createBinanceSignature "" [] =
      "b613679a0814d9ec772f95d778c35fc5ff1697c493715653c6c712144292c5ad" := by
  decide

/-- C2 amended: sign never fails; for every secret and parameter set,
including empty ones, it returns a 64-character lowercase hexadecimal
digest. -/
theorem C2_sign_never_fails (S : String) (P : List (String × String)) :
    (createBinanceSignature S P).length = 64 ∧
      lowercaseHexString (createBinanceSignature S P) = true := by
  constructor
  · show (bytesToHex _).length = 64
    rw [bytesToHex_length, hmacSha256_length]
  · exact lowercaseHexString_bytesToHex _

/-- C2 witness: the amended statement evaluated at a concrete secret and
parameter set. -/
theorem C2_witness :
    (createBinanceSignature "k" [("a", "1")]).length = 64 ∧
      lowercaseHexString (createBinanceSignature "k" [("a", "1")]) = true :=
  C2_sign_never_fails "k" [("a", "1")]

/-- C4 counterexample: a klines request missing symbol, interval and limit
is not answered with a 400 and does trigger an outbound call: the handler
dispatches to /api/v3/klines with the absent parameters omitted and answers
200 on upstream success. -/
theorem C4_counterexample :
    (handleKlines { headers := [], query := [] } (Upstream.ok (J.arr []))).calls =
      [{ path := "/api/v3/klines", query := [], headers := [] }] ∧
    (handleKlines { headers := [], query := [] } (Upstream.ok (J.arr []))).status = 200 := by
  constructor
  · rfl
  · rfl

/-- C4 amended: the klines handler performs no input validation at all: for
every request it dispatches exactly one outbound call carrying the
parameters that are present, and its reply status is 200 on upstream
success and a fixed 500 on every failure. -/
theorem C4_klines_no_validation (r : Req) (up : Upstream J) :
    (handleKlines r up).calls = [klinesCall r] ∧
      ((handleKlines r up).status = 200 ∨ (handleKlines r up).status = 500) := by
  cases up <;> simp [handleKlines]

/-- C5: on every account-scoped handler, an absent or empty credential
header yields the 400 missing-credentials reply with no outbound call and
no signature in the result, and a dispatched outbound call implies both
credential headers were present and non-empty. -/
theorem C5_credentials_guard (r : Req) (ts : Nat) (upB : Upstream (Option AccountData))
    (u1 u2 u3 : Upstream J) :
    ((truthy (getHeader r "x-api-key") && truthy (getHeader r "x-api-secret")) = false →
      handleBalances r ts upB = { status := 400, body := missingCredsBody, calls := [] } ∧
      handleAccount r ts u1 = { status := 400, body := missingCredsBody, calls := [] } ∧
      handleOpenOrders r ts u2 = { status := 400, body := missingCredsBody, calls := [] } ∧
      handleMyTrades r ts u3 = { status := 400, body := missingCredsBody, calls := [] }) ∧
    ((handleBalances r ts upB).calls ≠ [] →
      truthy (getHeader r "x-api-key") = true ∧ truthy (getHeader r "x-api-secret") = true) ∧
    ((handleAccount r ts u1).calls ≠ [] →
      truthy (getHeader r "x-api-key") = true ∧ truthy (getHeader r "x-api-secret") = true) ∧
    ((handleOpenOrders r ts u2).calls ≠ [] →
      truthy (getHeader r "x-api-key") = true ∧ truthy (getHeader r "x-api-secret") = true) ∧
    ((handleMyTrades r ts u3).calls ≠ [] →
      truthy (getHeader r "x-api-key") = true ∧ truthy (getHeader r "x-api-secret") = true) := by
  refine ⟨?_, ?_, ?_, ?_, ?_⟩
  · intro h
    exact ⟨handleBalances_noCreds r ts upB h, handleAccount_noCreds r ts u1 h,
      handleOpenOrders_noCreds r ts u2 h, handleMyTrades_noCreds r ts u3 h⟩
  · intro hcalls
    cases hA : truthy (getHeader r "x-api-key") with
    | false =>
        rw [handleBalances_noCreds r ts upB (by simp [hA])] at hcalls
        exact absurd rfl hcalls
    | true =>
        cases hB : truthy (getHeader r "x-api-secret") with
        | false =>
            rw [handleBalances_noCreds r ts upB (by simp [hA, hB])] at hcalls
            exact absurd rfl hcalls
        | true => exact ⟨rfl, rfl⟩
  · intro hcalls
    cases hA : truthy (getHeader r "x-api-key") with
    | false =>
        rw [handleAccount_noCreds r ts u1 (by simp [hA])] at hcalls
        exact absurd rfl hcalls
    | true =>
        cases hB : truthy (getHeader r "x-api-secret") with
        | false =>
            rw [handleAccount_noCreds r ts u1 (by simp [hA, hB])] at hcalls
            exact absurd rfl hcalls
        | true => exact ⟨rfl, rfl⟩
  · intro hcalls
    cases hA : truthy (getHeader r "x-api-key") with
    | false =>
        rw [handleOpenOrders_noCreds r ts u2 (by simp [hA])] at hcalls
        exact absurd rfl hcalls
    | true =>
        cases hB : truthy (getHeader r "x-api-secret") with
        | false =>
            rw [handleOpenOrders_noCreds r ts u2 (by simp [hA, hB])] at hcalls
            exact absurd rfl hcalls
        | true => exact ⟨rfl, rfl⟩
  · intro hcalls
    cases hA : truthy (getHeader r "x-api-key") with
    | false =>
        rw [handleMyTrades_noCreds r ts u3 (by simp [hA])] at hcalls
        exact absurd rfl hcalls
    | true =>
        cases hB : truthy (getHeader r "x-api-secret") with
        | false =>
            rw [handleMyTrades_noCreds r ts u3 (by simp [hA, hB])] at hcalls
            exact absurd rfl hcalls
        | true => exact ⟨rfl, rfl⟩

/-- C5 witness: a request with no headers at all is answered 400 with no
outbound call on all four account-scoped handlers. -/
theorem C5_witness :
    handleBalances { headers := [], query := [] } 1 (Upstream.ok none) =
      { status := 400, body := missingCredsBody, calls := [] } ∧
    handleAccount { headers := [], query := [] } 1 (Upstream.netErr "m") =
      { status := 400, body := missingCredsBody, calls := [] } ∧
    handleOpenOrders { headers := [], query := [] } 1 (Upstream.netErr "m") =
      { status := 400, body := missingCredsBody, calls := [] } ∧
    handleMyTrades { headers := [], query := [] } 1 (Upstream.netErr "m") =
      { status := 400, body := missingCredsBody, calls := [] } :=
  (C5_credentials_guard { headers := [], query := [] } 1 (Upstream.ok none)
    (Upstream.netErr "m") (Upstream.netErr "m") (Upstream.netErr "m")).1 (by decide)

/-- C10: on balances, a successful upstream reply whose body is falsy or
lacks the balances field is answered 500 with the invalid-response error
object rather than a reshaped array. -/
theorem C10_invalid_balances_body (r : Req) (ts : Nat)
    (hk : truthy (getHeader r "x-api-key") = true)
    (hs : truthy (getHeader r "x-api-secret") = true) :
    (handleBalances r ts (Upstream.ok none)).status = 500 ∧
    (handleBalances r ts (Upstream.ok none)).body =
      J.obj [("error", J.s "Invalid response from Binance API")] ∧
    (handleBalances r ts (Upstream.ok (some { balances := none }))).status = 500 ∧
    (handleBalances r ts (Upstream.ok (some { balances := none }))).body =
      J.obj [("error", J.s "Invalid response from Binance API")] := by
  simp [handleBalances, hk, hs]

/-- C10 witness: the statement evaluated on a concrete credentialed
request. -/
theorem C10_witness :
    (handleBalances (mkAuthReq "k" "s" []) 1 (Upstream.ok none)).status = 500 ∧
    (handleBalances (mkAuthReq "k" "s" []) 1 (Upstream.ok none)).body =
      J.obj [("error", J.s "Invalid response from Binance API")] ∧
    (handleBalances (mkAuthReq "k" "s" []) 1 (Upstream.ok (some { balances := none }))).status = 500 ∧
    (handleBalances (mkAuthReq "k" "s" []) 1 (Upstream.ok (some { balances := none }))).body =
      J.obj [("error", J.s "Invalid response from Binance API")] :=
  C10_invalid_balances_body (mkAuthReq "k" "s" []) 1 (by decide) (by decide)

/-- C3 counterexample: the klines handler answers a fixed 500 on an
upstream 418 reply instead of propagating the upstream status code. -/
theorem C3_counterexample :
    (handleKlines { headers := [], query := [] }
      (Upstream.httpErr 418 (J.obj [("msg", J.s "rate limited by exchange")])
        "Request failed with status code 418")).status = 500 ∧
    (handleKlines { headers := [], query := [] }
      (Upstream.httpErr 418 (J.obj [("msg", J.s "rate limited by exchange")])
        "Request failed with status code 418")).status ≠ 418 := by
  constructor
  · rfl
  · decide

/-- C3 amended: only the single-symbol price handler and the four
account-scoped handlers propagate the upstream status of a non-2xx reply,
the account-scoped ones with a structured body carrying the generic label,
the upstream status and the upstream message when present; the ping,
prices, exchangeInfo, klines and 24hr-ticker handlers answer a fixed 500
carrying the error message instead. -/
theorem C3_upstream_error_mapping (r : Req) (ts st : Nat) (body : J) (msg sym : String)
    (hk : truthy (getHeader r "x-api-key") = true)
    (hs : truthy (getHeader r "x-api-secret") = true)
    (hsym : truthy (getQuery r "symbol") = true) :
    (handlePrice sym (Upstream.httpErr st body msg)).status = st ∧
    (handleBalances r ts (Upstream.httpErr st body msg)).status = st ∧
    (handleBalances r ts (Upstream.httpErr st body msg)).body =
      upstreamErrBody "Failed to fetch balances from Binance" st body msg ∧
    (handleAccount r ts (Upstream.httpErr st body msg)).status = st ∧
    (handleAccount r ts (Upstream.httpErr st body msg)).body =
      upstreamErrBody "Failed to fetch account info from Binance" st body msg ∧
    (handleOpenOrders r ts (Upstream.httpErr st body msg)).status = st ∧
    (handleOpenOrders r ts (Upstream.httpErr st body msg)).body =
      upstreamErrBody "Failed to fetch open orders from Binance" st body msg ∧
    (handleMyTrades r ts (Upstream.httpErr st body msg)).status = st ∧
    (handleMyTrades r ts (Upstream.httpErr st body msg)).body =
      upstreamErrBody "Failed to fetch trade history from Binance" st body msg ∧
    (handlePing (Upstream.httpErr st body msg)).status = 500 ∧
    (handlePrices (Upstream.httpErr st body msg)).status = 500 ∧
    (handleExchangeInfo (Upstream.httpErr st body msg)).status = 500 ∧
    (handleKlines r (Upstream.httpErr st body msg)).status = 500 ∧
    (handleTicker24hr r (Upstream.httpErr st body msg)).status = 500 := by
  simp [handlePrice, handleBalances, handleAccount, handleOpenOrders, handleMyTrades,
    handlePing, handlePrices, handleExchangeInfo, handleKlines, handleTicker24hr,
    hk, hs, hsym]

/-- C3 witness: the amended statement evaluated on a concrete credentialed
request and a concrete upstream 418 reply. -/
theorem C3_witness :
    (handlePrice "BTCUSDT" (Upstream.httpErr 418 (J.obj [("msg", J.s "x")]) "m")).status = 418 ∧
    (handleBalances (mkAuthReq "k" "s" [("symbol", "BTCUSDT")]) 7
      (Upstream.httpErr 418 (J.obj [("msg", J.s "x")]) "m")).status = 418 ∧
    (handleBalances (mkAuthReq "k" "s" [("symbol", "BTCUSDT")]) 7
      (Upstream.httpErr 418 (J.obj [("msg", J.s "x")]) "m")).body =
      upstreamErrBody "Failed to fetch balances from Binance" 418 (J.obj [("msg", J.s "x")]) "m" ∧
    (handleAccount (mkAuthReq "k" "s" [("symbol", "BTCUSDT")]) 7
      (Upstream.httpErr 418 (J.obj [("msg", J.s "x")]) "m")).status = 418 ∧
    (handleAccount (mkAuthReq "k" "s" [("symbol", "BTCUSDT")]) 7
      (Upstream.httpErr 418 (J.obj [("msg", J.s "x")]) "m")).body =
      upstreamErrBody "Failed to fetch account info from Binance" 418 (J.obj [("msg", J.s "x")]) "m" ∧
    (handleOpenOrders (mkAuthReq "k" "s" [("symbol", "BTCUSDT")]) 7
      (Upstream.httpErr 418 (J.obj [("msg", J.s "x")]) "m")).status = 418 ∧
    (handleOpenOrders (mkAuthReq "k" "s" [("symbol", "BTCUSDT")]) 7
      (Upstream.httpErr 418 (J.obj [("msg", J.s "x")]) "m")).body =
      upstreamErrBody "Failed to fetch open orders from Binance" 418 (J.obj [("msg", J.s "x")]) "m" ∧
    (handleMyTrades (mkAuthReq "k" "s" [("symbol", "BTCUSDT")]) 7
      (Upstream.httpErr 418 (J.obj [("msg", J.s "x")]) "m")).status = 418 ∧
    (handleMyTrades (mkAuthReq "k" "s" [("symbol", "BTCUSDT")]) 7
      (Upstream.httpErr 418 (J.obj [("msg", J.s "x")]) "m")).body =
      upstreamErrBody "Failed to fetch trade history from Binance" 418 (J.obj [("msg", J.s "x")]) "m" ∧
    (handlePing (Upstream.httpErr 418 (J.obj [("msg", J.s "x")]) "m")).status = 500 ∧
    (handlePrices (Upstream.httpErr 418 (J.obj [("msg", J.s "x")]) "m")).status = 500 ∧
    (handleExchangeInfo (Upstream.httpErr 418 (J.obj [("msg", J.s "x")]) "m")).status = 500 ∧
    (handleKlines (mkAuthReq "k" "s" [("symbol", "BTCUSDT")])
      (Upstream.httpErr 418 (J.obj [("msg", J.s "x")]) "m")).status = 500 ∧
    (handleTicker24hr (mkAuthReq "k" "s" [("symbol", "BTCUSDT")])
      (Upstream.httpErr 418 (J.obj [("msg", J.s "x")]) "m")).status = 500 :=
  C3_upstream_error_mapping (mkAuthReq "k" "s" [("symbol", "BTCUSDT")]) 7 418
    (J.obj [("msg", J.s "x")]) "m" "BTCUSDT" (by decide) (by decide) (by decide)

/-- C6: for every upstream balance array behind valid credentials, the
balances reply is exactly the sublist of entries whose free or locked
amount parses greater than zero, in original order, remapped to asset,
available and onOrder; all other entries are dropped. -/
theorem C6_balances_reshape (r : Req) (ts : Nat) (balances : List RawBalance)
    (hk : truthy (getHeader r "x-api-key") = true)
    (hs : truthy (getHeader r "x-api-secret") = true) :
    (handleBalances r ts (Upstream.ok (some { balances := some balances }))).status = 200 ∧
    (handleBalances r ts (Upstream.ok (some { balances := some balances }))).body =
      J.arr (specBalancesView balances) := by
  constructor
  · simp [handleBalances, hk, hs]
  · simp [handleBalances, hk, hs]
    rfl

/-- C6 witness: the specification example, where the zero balance is
filtered out and the nonzero one is remapped. -/
theorem C6_witness :
    (handleBalances (mkAuthReq "k" "s" []) 1
      (Upstream.ok (some { balances := some [⟨"BTC", "0", "0"⟩, ⟨"ETH", "1.5", "0"⟩] }))).status =
      200 ∧
    (handleBalances (mkAuthReq "k" "s" []) 1
      (Upstream.ok (some { balances := some [⟨"BTC", "0", "0"⟩, ⟨"ETH", "1.5", "0"⟩] }))).body =
      J.arr [J.obj [("asset", J.s "ETH"), ("available", J.s "1.5"), ("onOrder", J.s "0")]] := by
  have h := C6_balances_reshape (mkAuthReq "k" "s" []) 1
    [⟨"BTC", "0", "0"⟩, ⟨"ETH", "1.5", "0"⟩] (by decide) (by decide)
  exact ⟨h.1, h.2.trans (by rfl)⟩

theorem lookupStr_cons (kv : String × String) (rest : List (String × String)) (s : String) :
    lookupStr (kv :: rest) s = if kv.1 = s then some kv.2 else lookupStr rest s := by
  by_cases h : kv.1 = s
  · rw [lookupStr, List.find?_cons_of_pos _ (by simpa using h), if_pos h]
    rfl
  · rw [lookupStr, List.find?_cons_of_neg _ (by simpa using h), if_neg h]
    rfl

theorem lookup_upsert (m : List (String × String)) (k v s : String) :
    lookupStr (upsert m k v) s = if s = k then some v else lookupStr m s := by
  induction m with
  | nil =>
      rw [upsert, lookupStr_cons]
      by_cases h : k = s
      · rw [if_pos h, if_pos h.symm]
      · rw [if_neg h, if_neg (fun hh => h hh.symm)]
  | cons kv rest ih =>
      rw [upsert]
      by_cases hkk : kv.1 = k
      · rw [if_pos (by simpa using hkk), lookupStr_cons, lookupStr_cons]
        by_cases h : k = s
        · rw [if_pos h, if_pos h.symm]
        · rw [if_neg h, if_neg (fun hh => h hh.symm), if_neg (fun hh => h (hkk.symm.trans hh))]
      · rw [if_neg (by simpa using hkk), lookupStr_cons, lookupStr_cons, ih]
        by_cases hks : kv.1 = s
        · rw [if_pos hks, if_neg (fun hh => hkk (hks.trans hh)), if_pos hks]
        · rw [if_neg hks, if_neg hks]

theorem lastAssoc_cons (it : String × String) (rest : List (String × String)) (s : String) :
    lastAssoc (it :: rest) s =
      Option.or (lastAssoc rest s) (if it.1 = s then some it.2 else none) := by
  rw [lastAssoc, List.reverse_cons, List.find?_append, lastAssoc]
  cases hf : rest.reverse.find? (fun kv => kv.1 == s) with
  | none =>
      by_cases h : it.1 = s
      · have hb : (it.1 == s) = true := by simpa using h
        simp [List.find?, hb, h, Option.or]
      · have hb : (it.1 == s) = false := by simpa using h
        simp [List.find?, hb, h, Option.or]
  | some kv =>
      simp [Option.or]

theorem buildPrices_lookup_gen (items : List (String × String)) :
    ∀ (m : List (String × String)) (s : String),
      lookupStr (items.foldl (fun m it => upsert m it.1 it.2) m) s =
        Option.or (lastAssoc items s) (lookupStr m s) := by
  induction items with
  | nil =>
      intro m s
      simp [lastAssoc, Option.or]
  | cons it rest ih =>
      intro m s
      rw [List.foldl_cons, ih, lastAssoc_cons, lookup_upsert]
      cases hla : lastAssoc rest s with
      | some v => rfl
      | none =>
          by_cases h : s = it.1
          · rw [if_pos h, if_pos h.symm]
            rfl
          · rw [if_neg h, if_neg (fun hh => h hh.symm)]
            rfl

theorem find?_isSome_mem {p : List (String × String)} {s : String} :
    ((p.find? (fun kv => kv.1 == s)).isSome = true) ↔ s ∈ p.map Prod.fst := by
  rw [List.find?_isSome]
  constructor
  · rintro ⟨kv, hm, hk⟩
    exact List.mem_map.mpr ⟨kv, hm, by simpa using hk⟩
  · intro h
    obtain ⟨kv, hm, hk⟩ := List.mem_map.mp h
    exact ⟨kv, hm, by simpa using hk⟩

/-- C7 counterexample: on an upstream array with a duplicated symbol the
mapping does not associate the first entry with its price; the later entry
overwrites it. -/
theorem C7_counterexample :
    ("A", "1") ∈ [("A", "1"), ("A", "2")] ∧
    lookupStr (buildPrices [("A", "1"), ("A", "2")]) "A" ≠ some "1" ∧
    lookupStr (buildPrices [("A", "1"), ("A", "2")]) "A" = some "2" := by
  refine ⟨by decide, by decide, by decide⟩

/-- C7 amended: the prices reply maps each symbol of the upstream array to
the price of its last occurrence, and its keys are exactly the symbols of
the array; when symbols are distinct this is each entry's own price. -/
theorem C7_prices_mapping (items : List (String × String)) (s : String) :
    (handlePrices (Upstream.ok items)).body =
      J.obj ((buildPrices items).map (fun kv => (kv.1, J.s kv.2))) ∧
    lookupStr (buildPrices items) s = lastAssoc items s ∧
    ((lookupStr (buildPrices items) s).isSome = true ↔ s ∈ items.map Prod.fst) := by
  have hmain : lookupStr (buildPrices items) s = lastAssoc items s := by
    have h := buildPrices_lookup_gen items [] s
    rw [buildPrices]
    rw [h]
    simp [lookupStr, Option.or]
    cases lastAssoc items s <;> simp
  refine ⟨rfl, hmain, ?_⟩
  rw [hmain, lastAssoc, Option.isSome_map']
  rw [find?_isSome_mem]
  constructor
  · intro h
    obtain ⟨kv, hm, hk⟩ := List.mem_map.mp h
    exact List.mem_map.mpr ⟨kv, List.mem_reverse.mp hm, hk⟩
  · intro h
    obtain ⟨kv, hm, hk⟩ := List.mem_map.mp h
    exact List.mem_map.mpr ⟨kv, List.mem_reverse.mpr hm, hk⟩

/-- C8: on every authenticated handler with valid credentials, the outbound
request's query consists exactly of the assembled parameter set followed by
the signature entry, and its headers consist exactly of the dedicated API
key header; moreover the outbound call depends on the secret only through
the computed signature, and the API key never influences the outbound query
or path. -/
theorem C8_outbound_request_shape (k k2 s s2 : String) (q : List (String × String)) (ts : Nat)
    (upB upB2 upB3 : Upstream (Option AccountData)) (u1 u2 u3 : Upstream J)
    (hk : k ≠ "") (hk2 : k2 ≠ "") (hs : s ≠ "") (hs2 : s2 ≠ "")
    (hsym : truthy (getQuery (mkAuthReq k s q) "symbol") = true)
    (hsig : createBinanceSignature s [("timestamp", toString ts)] =
      createBinanceSignature s2 [("timestamp", toString ts)]) :
    (handleBalances (mkAuthReq k s q) ts upB).calls =
      [{ path := "/api/v3/account",
         query := [("timestamp", toString ts),
           ("signature", createBinanceSignature s [("timestamp", toString ts)])],
         headers := [("X-MBX-APIKEY", k)] }] ∧
    (handleAccount (mkAuthReq k s q) ts u1).calls =
      [{ path := "/api/v3/account",
         query := [("timestamp", toString ts),
           ("signature", createBinanceSignature s [("timestamp", toString ts)])],
         headers := [("X-MBX-APIKEY", k)] }] ∧
    (handleOpenOrders (mkAuthReq k s q) ts u2).calls =
      [{ path := "/api/v3/openOrders",
         query := openOrdersParams (mkAuthReq k s q) ts ++
           [("signature", createBinanceSignature s (openOrdersParams (mkAuthReq k s q) ts))],
         headers := [("X-MBX-APIKEY", k)] }] ∧
    (handleMyTrades (mkAuthReq k s q) ts u3).calls =
      [{ path := "/api/v3/myTrades",
         query := myTradesParams (mkAuthReq k s q) ts ++
           [("signature", createBinanceSignature s (myTradesParams (mkAuthReq k s q) ts))],
         headers := [("X-MBX-APIKEY", k)] }] ∧
    (handleBalances (mkAuthReq k s2 q) ts upB2).calls =
      (handleBalances (mkAuthReq k s q) ts upB2).calls ∧
    (handleBalances (mkAuthReq k2 s q) ts upB3).calls.map OutboundCall.query =
      (handleBalances (mkAuthReq k s q) ts upB3).calls.map OutboundCall.query ∧
    (handleBalances (mkAuthReq k2 s q) ts upB3).calls.map OutboundCall.path =
      (handleBalances (mkAuthReq k s q) ts upB3).calls.map OutboundCall.path := by
  have hkT : truthy (getHeader (mkAuthReq k s q) "x-api-key") = true := by
    rw [getHeader_mkAuthReq_key]; exact truthy_some_of_ne k hk
  have hsT : truthy (getHeader (mkAuthReq k s q) "x-api-secret") = true := by
    rw [getHeader_mkAuthReq_secret]; exact truthy_some_of_ne s hs
  have hkT2 : truthy (getHeader (mkAuthReq k2 s q) "x-api-key") = true := by
    rw [getHeader_mkAuthReq_key]; exact truthy_some_of_ne k2 hk2
  have hsT2 : truthy (getHeader (mkAuthReq k s2 q) "x-api-secret") = true := by
    rw [getHeader_mkAuthReq_secret]; exact truthy_some_of_ne s2 hs2
  have hkT3 : truthy (getHeader (mkAuthReq k s2 q) "x-api-key") = true := by
    rw [getHeader_mkAuthReq_key]; exact truthy_some_of_ne k hk
  have hsT3 : truthy (getHeader (mkAuthReq k2 s q) "x-api-secret") = true := by
    rw [getHeader_mkAuthReq_secret]; exact truthy_some_of_ne s hs
  refine ⟨?_, ?_, ?_, ?_, ?_, ?_, ?_⟩
  · rw [handleBalances_calls _ _ _ hkT hsT]
    simp only [getHeader_mkAuthReq_key, getHeader_mkAuthReq_secret, Option.getD_some]
  · rw [handleAccount_calls _ _ _ hkT hsT]
    simp only [getHeader_mkAuthReq_key, getHeader_mkAuthReq_secret, Option.getD_some]
  · rw [handleOpenOrders_calls _ _ _ hkT hsT]
    simp only [getHeader_mkAuthReq_key, getHeader_mkAuthReq_secret, Option.getD_some]
  · rw [handleMyTrades_calls _ _ _ hkT hsT hsym]
    simp only [getHeader_mkAuthReq_key, getHeader_mkAuthReq_secret, Option.getD_some]
  · rw [handleBalances_calls _ _ _ hkT3 hsT2, handleBalances_calls _ _ _ hkT hsT]
    simp only [getHeader_mkAuthReq_key, getHeader_mkAuthReq_secret, Option.getD_some]
    rw [hsig]
  · rw [handleBalances_calls _ _ _ hkT2 hsT3, handleBalances_calls _ _ _ hkT hsT]
    simp only [getHeader_mkAuthReq_key, getHeader_mkAuthReq_secret, Option.getD_some,
      List.map_cons, List.map_nil]
  · rw [handleBalances_calls _ _ _ hkT2 hsT3, handleBalances_calls _ _ _ hkT hsT]
    simp only [getHeader_mkAuthReq_key, getHeader_mkAuthReq_secret, Option.getD_some,
      List.map_cons, List.map_nil]

/-- C8 witness: the statement evaluated at concrete credentials, with the
secret-noninterference hypothesis discharged by reflexivity at an equal
secret. -/
theorem C8_witness :
    (handleBalances (mkAuthReq "k" "s" [("symbol", "BTCUSDT")]) 3 (Upstream.ok none)).calls =
      [{ path := "/api/v3/account",
         query := [("timestamp", toString 3),
           ("signature", createBinanceSignature "s" [("timestamp", toString 3)])],
         headers := [("X-MBX-APIKEY", "k")] }] ∧
    (handleAccount (mkAuthReq "k" "s" [("symbol", "BTCUSDT")]) 3 (Upstream.netErr "m")).calls =
      [{ path := "/api/v3/account",
         query := [("timestamp", toString 3),
           ("signature", createBinanceSignature "s" [("timestamp", toString 3)])],
         headers := [("X-MBX-APIKEY", "k")] }] ∧
    (handleOpenOrders (mkAuthReq "k" "s" [("symbol", "BTCUSDT")]) 3 (Upstream.netErr "m")).calls =
      [{ path := "/api/v3/openOrders",
         query := openOrdersParams (mkAuthReq "k" "s" [("symbol", "BTCUSDT")]) 3 ++
           [("signature", createBinanceSignature "s"
             (openOrdersParams (mkAuthReq "k" "s" [("symbol", "BTCUSDT")]) 3))],
         headers := [("X-MBX-APIKEY", "k")] }] ∧
    (handleMyTrades (mkAuthReq "k" "s" [("symbol", "BTCUSDT")]) 3 (Upstream.netErr "m")).calls =
      [{ path := "/api/v3/myTrades",
         query := myTradesParams (mkAuthReq "k" "s" [("symbol", "BTCUSDT")]) 3 ++
           [("signature", createBinanceSignature "s"
             (myTradesParams (mkAuthReq "k" "s" [("symbol", "BTCUSDT")]) 3))],
         headers := [("X-MBX-APIKEY", "k")] }] ∧
    (handleBalances (mkAuthReq "k" "s" [("symbol", "BTCUSDT")]) 3 (Upstream.ok none)).calls =
      (handleBalances (mkAuthReq "k" "s" [("symbol", "BTCUSDT")]) 3 (Upstream.ok none)).calls ∧
    (handleBalances (mkAuthReq "k2" "s" [("symbol", "BTCUSDT")]) 3
        (Upstream.ok none)).calls.map OutboundCall.query =
      (handleBalances (mkAuthReq "k" "s" [("symbol", "BTCUSDT")]) 3
        (Upstream.ok none)).calls.map OutboundCall.query ∧
    (handleBalances (mkAuthReq "k2" "s" [("symbol", "BTCUSDT")]) 3
        (Upstream.ok none)).calls.map OutboundCall.path =
      (handleBalances (mkAuthReq "k" "s" [("symbol", "BTCUSDT")]) 3
        (Upstream.ok none)).calls.map OutboundCall.path :=
  C8_outbound_request_shape "k" "k2" "s" "s" [("symbol", "BTCUSDT")] 3
    (Upstream.ok none) (Upstream.ok none) (Upstream.ok none)
    (Upstream.netErr "m") (Upstream.netErr "m") (Upstream.netErr "m")
    (by decide) (by decide) (by decide) (by decide) (by decide) rfl

/-! ### Order sensitivity of the canonical string -/

theorem canonicalQuery_data (p : List (String × String)) :
    (canonicalQuery p).data = List.intercalate ['&'] ((p.map entryStr).map String.data) := by
  rw [canonicalQuery, intercalate_data]
  rfl

theorem entryStr_data (kv : String × String) :
    (entryStr kv).data = kv.1.data ++ '=' :: kv.2.data := by
  simp [entryStr]

theorem sep_append_inj : ∀ (a : List Char) {b : List Char} (c : List Char) {d : List Char},
    '=' ∉ a → '=' ∉ c → a ++ '=' :: b = c ++ '=' :: d → a = c ∧ b = d := by
  intro a
  induction a with
  | nil =>
      intro b c d _ hc h
      cases c with
      | nil => simpa using h
      | cons x c2 =>
          simp only [List.nil_append, List.cons_append, List.cons.injEq] at h
          exact absurd (h.1 ▸ List.mem_cons_self x c2) hc
  | cons y a2 ih =>
      intro b c d ha hc h
      cases c with
      | nil =>
          simp only [List.cons_append, List.nil_append, List.cons.injEq] at h
          exact absurd (h.1 ▸ List.mem_cons_self y a2) ha
      | cons x c2 =>
          simp only [List.cons_append, List.cons.injEq] at h
          obtain ⟨rfl, h2⟩ := h
          have ha2 : '=' ∉ a2 := fun hm => ha (List.mem_cons_of_mem _ hm)
          have hc2 : '=' ∉ c2 := fun hm => hc (List.mem_cons_of_mem _ hm)
          obtain ⟨he, hb⟩ := ih c2 ha2 hc2 h2
          exact ⟨by rw [he], hb⟩

theorem entriesData_map (p : List (String × String)) :
    (p.map entryStr).map String.data =
      p.map (fun kv => kv.1.data ++ '=' :: kv.2.data) := by
  induction p with
  | nil => rfl
  | cons kv rest ih => simp [entryStr_data, ih]

theorem canonicalQuery_entries (p : List (String × String)) :
    (canonicalQuery p).data =
      List.intercalate ['&'] (p.map (fun kv => kv.1.data ++ '=' :: kv.2.data)) := by
  rw [canonicalQuery_data, entriesData_map]

theorem intercalate_single {α : Type} (sep e : List α) :
    List.intercalate sep [e] = e := by
  simp [List.intercalate]

theorem intercalate_cons₂ {α : Type} (sep x y : List α) (t : List (List α)) :
    List.intercalate sep (x :: y :: t) = x ++ sep ++ List.intercalate sep (y :: t) := by
  rw [list_intercalate_cons sep x (y :: t), list_intercalate_cons sep y t]
  simp [List.append_assoc]

theorem canonical_inj_of_nodup : ∀ (p1 p2 : List (String × String)),
    (p1.map Prod.fst).Nodup →
    (∀ kv ∈ p1, '=' ∉ (kv : String × String).1.data) →
    List.Perm p2 p1 → canonicalQuery p1 = canonicalQuery p2 → p1 = p2 := by
  intro p1
  induction p1 with
  | nil =>
      intro p2 _ _ hperm _
      exact hperm.eq_nil.symm
  | cons kv1 rest1 ih =>
      intro p2 hnd heqf hperm hcan
      cases p2 with
      | nil =>
          have hlen := hperm.length_eq
          simp at hlen
      | cons kv2 rest2 =>
          have hdata := congrArg String.data hcan
          rw [canonicalQuery_entries, canonicalQuery_entries] at hdata
          simp only [List.map_cons, List.map_nil] at hdata
          have hkv2mem : kv2 ∈ kv1 :: rest1 :=
            hperm.mem_iff.mp (List.mem_cons_self kv2 rest2)
          have heqf1 : '=' ∉ kv1.1.data := heqf kv1 (List.mem_cons_self _ _)
          have heqf2 : '=' ∉ kv2.1.data := heqf kv2 hkv2mem
          cases rest1 with
          | nil =>
              cases rest2 with
              | cons a b =>
                  have hlen := hperm.length_eq
                  simp at hlen
              | nil =>
                  simp only [List.map_nil] at hdata
                  rw [intercalate_single, intercalate_single] at hdata
                  obtain ⟨hk, hv⟩ := sep_append_inj _ _ heqf1 heqf2 hdata
                  rw [Prod.ext (String.ext hk) (String.ext hv)]
          | cons r1h r1t =>
              cases rest2 with
              | nil =>
                  have hlen := hperm.length_eq
                  simp at hlen
              | cons r2h r2t =>
                  simp only [List.map_cons] at hdata
                  rw [intercalate_cons₂, intercalate_cons₂] at hdata
                  simp only [List.append_assoc, List.cons_append, List.singleton_append,
                    List.nil_append] at hdata
                  obtain ⟨hk, hrest⟩ := sep_append_inj _ _ heqf1 heqf2 hdata
                  have hkey : kv1.1 = kv2.1 := String.ext hk
                  have hkv : kv2 = kv1 := by
                    rcases List.mem_cons.mp hkv2mem with h | h
                    · exact h
                    · exfalso
                      have hmem2 : kv2.1 ∈ (r1h :: r1t).map Prod.fst :=
                        List.mem_map.mpr ⟨kv2, h, rfl⟩
                      have hnodup1 : kv1.1 ∉ ((r1h :: r1t).map Prod.fst) :=
                        (List.nodup_cons.mp (by simpa using hnd)).1
                      exact hnodup1 (hkey ▸ hmem2)
                  subst hkv
                  have hJ := List.append_cancel_left hrest
                  simp only [List.cons.injEq, true_and] at hJ
                  have hcanrest : canonicalQuery (r1h :: r1t) = canonicalQuery (r2h :: r2t) := by
                    apply String.ext
                    rw [canonicalQuery_entries, canonicalQuery_entries]
                    exact hJ
                  have hperm2 : List.Perm (r2h :: r2t) (r1h :: r1t) := hperm.cons_inv
                  have hnd2 : ((r1h :: r1t).map Prod.fst).Nodup :=
                    (List.nodup_cons.mp (by simpa using hnd)).2
                  have heqf3 : ∀ kv ∈ r1h :: r1t, '=' ∉ (kv : String × String).1.data :=
                    fun kv hm => heqf kv (List.mem_cons_of_mem _ hm)
                  rw [ih (r2h :: r2t) hnd2 heqf3 hperm2 hcanrest]

/-- C9 counterexample: two parameter sets with pairwise distinct keys,
identical pairs, different insertion orders and two distinct entries whose
canonical strings coincide, because one key itself contains an equals
character; both orders serialize to the same string. -/
theorem C9_counterexample :
    canonicalQuery [("a", "b=c"), ("a=b", "c")] =
      canonicalQuery [("a=b", "c"), ("a", "b=c")] ∧
    (([("a", "b=c"), ("a=b", "c")] : List (String × String)).map Prod.fst).Nodup ∧
    List.Perm [("a", "b=c"), ("a=b", "c")] [("a=b", "c"), ("a", "b=c")] ∧
    ([("a", "b=c"), ("a=b", "c")] : List (String × String)) ≠
      [("a=b", "c"), ("a", "b=c")] ∧
    (("a", "b=c") : String × String) ≠ ("a=b", "c") := by
  refine ⟨by decide, by decide, by decide, by decide, by decide⟩

/-- C9 amended: under the ParameterSet invariant of pairwise distinct keys,
and provided no key contains an equals character, any two distinct
insertion orders of the same key/value pairs produce distinct canonical
strings; values are unrestricted. -/
theorem C9_order_sensitivity (p1 p2 : List (String × String))
    (hnd : (p1.map Prod.fst).Nodup)
    (heqf : ∀ kv ∈ p1, '=' ∉ (kv : String × String).1.data)
    (hperm : List.Perm p1 p2) (hne : p1 ≠ p2) :
    canonicalQuery p1 ≠ canonicalQuery p2 :=
  fun heq => hne (canonical_inj_of_nodup p1 p2 hnd heqf hperm.symm heq)

/-- C9 witness: two parameter sets with distinct equals-free keys in
swapped order have distinct canonical strings. -/
theorem C9_witness :
    canonicalQuery [("a", "1"), ("b", "2")] ≠ canonicalQuery [("b", "2"), ("a", "1")] :=
  C9_order_sensitivity [("a", "1"), ("b", "2")] [("b", "2"), ("a", "1")]
    (by decide) (by decide) (by decide) (by decide)

end BinanceRelay
